import Mathlib

/-!
Verification of the transaction-to-relational transformation engine of the
aptos-indexer-processors repository, against its natural-language
specification.  Rust code is shallowly embedded: strings become `List Char`
wrapped in `String`, machine integers become `Nat`/`Int` with explicit
`% 2 ^ 64` where u64 overflow matters, fallible code returns `Option` or
`Except`, and a Rust panic is modelled as `Option.none` / `Except.error`.
-/

namespace AptosIndexer

/-! ## Normalizer (src/rust/processor/src/utils/util.rs) -/

/-- Rust `str::strip_prefix("0x")` specialised to the literal used by
`standardize_address`: removes a leading `0x` if present. -/
def strip0x : List Char → Option (List Char)
  | '0' :: 'x' :: rest => some rest
  | _ => none

/-- The `format!("0x{:0>64}", h)` padding: left-pad with the character `'0'`
to a minimum width of 64 (strings already at least 64 long are unchanged). -/
def leftPad64 (h : List Char) : List Char :=
  List.replicate (64 - h.length) '0' ++ h

/-- `standardize_address` from `utils/util.rs`: strip an optional `0x`
prefix, then format with `format!("0x{:0>64}", handle)` (both branches of
the source `if let` format identically). -/
def standardizeAddressChars (s : List Char) : List Char :=
  match strip0x s with
  | some handle => '0' :: 'x' :: leftPad64 handle
  | none => '0' :: 'x' :: leftPad64 s

/-- String-level wrapper matching the Rust signature
`standardize_address(handle: &str) -> String`. -/
def standardize_address (s : String) : String :=
  ⟨standardizeAddressChars s.data⟩

theorem leftPad64_length (h : List Char) : (leftPad64 h).length = max 64 h.length := by
  simp [leftPad64]
  omega

theorem leftPad64_of_long (h : List Char) (hlen : 64 ≤ h.length) : leftPad64 h = h := by
  simp [leftPad64, Nat.sub_eq_zero_of_le hlen]

theorem standardizeAddressChars_idem (s : List Char) :
    standardizeAddressChars (standardizeAddressChars s) = standardizeAddressChars s := by
  have pad_idem : ∀ h : List Char, leftPad64 (leftPad64 h) = leftPad64 h := by
    intro h
    apply leftPad64_of_long
    rw [leftPad64_length]
    omega
  unfold standardizeAddressChars
  cases s with
  | nil => simp [strip0x, pad_idem]
  | cons a rest =>
    by_cases ha : a = '0'
    · subst ha
      cases rest with
      | nil => simp [strip0x, pad_idem]
      | cons b rest2 =>
        by_cases hb : b = 'x'
        · subst hb
          simp [strip0x, pad_idem]
        · simp [strip0x, hb, pad_idem]
    · cases rest with
      | nil => simp [strip0x, ha, pad_idem]
      | cons b rest2 => simp [strip0x, ha, pad_idem]

/-- C9: `standardize_address` is idempotent, maps `"0x1"` and `"1"` to the
same result, and always produces `"0x"` followed by the input's digits
(with any leading `"0x"` removed) left-padded with `'0'` to at least 64
characters. -/
theorem ans_standardize_address_spec :
    (∀ s : String, standardize_address (standardize_address s) = standardize_address s) ∧
    standardize_address "0x1" = standardize_address "1" ∧
    (∀ s : String,
      (standardize_address s).data =
        '0' :: 'x' :: leftPad64 ((strip0x s.data).getD s.data) ∧
      64 ≤ (leftPad64 ((strip0x s.data).getD s.data)).length) := by
  refine ⟨?_, ?_, ?_⟩
  · intro s
    show (⟨standardizeAddressChars (standardize_address s).data⟩ : String) = _
    have : (standardize_address s).data = standardizeAddressChars s.data := rfl
    rw [this, standardizeAddressChars_idem]
    rfl
  · rfl
  · intro s
    constructor
    · show standardizeAddressChars s.data = _
      unfold standardizeAddressChars
      cases h : strip0x s.data <;> simp [h]
    · rw [leftPad64_length]
      omega

/-! ## ANS current-state tables and their conflict-resolving upserts
(src/rust/processor/src/processors/ans_processor.rs)

Each row structure lists the conflict-key columns and the non-key columns
named in the corresponding diesel query; column values are modelled with
concrete Lean types (`String`/`Int`/`Bool`).  Each `upsert…` function is the
Postgres semantics of the query for the row stored under the incoming row's
conflict key: `INSERT … ON CONFLICT (key) DO UPDATE SET non-key columns
FROM excluded WHERE stored.last_transaction_version <=
excluded.last_transaction_version`. -/

structure CurrentAnsLookup where
  domain : String
  subdomain : String
  registered_address : Option String
  expiration_timestamp : Int
  last_transaction_version : Int
  token_name : String
  is_deleted : Bool
  inserted_at : Int
deriving Repr, DecidableEq

/-- `insert_current_ans_lookups_query`: conflict on `(domain, subdomain)`,
conditional update of the non-key columns. -/
def upsertCurrentAnsLookup (stored : Option CurrentAnsLookup)
    (incoming : CurrentAnsLookup) : CurrentAnsLookup :=
  match stored with
  | none => incoming
  | some s =>
    if s.last_transaction_version ≤ incoming.last_transaction_version then
      { s with
        registered_address := incoming.registered_address
        expiration_timestamp := incoming.expiration_timestamp
        last_transaction_version := incoming.last_transaction_version
        token_name := incoming.token_name
        is_deleted := incoming.is_deleted
        inserted_at := incoming.inserted_at }
    else s

structure CurrentAnsPrimaryName where
  registered_address : String
  domain : Option String
  subdomain : Option String
  token_name : Option String
  is_deleted : Bool
  last_transaction_version : Int
  inserted_at : Int
deriving Repr, DecidableEq

/-- `insert_current_ans_primary_names_query`: conflict on
`registered_address`, conditional update of the non-key columns. -/
def upsertCurrentAnsPrimaryName (stored : Option CurrentAnsPrimaryName)
    (incoming : CurrentAnsPrimaryName) : CurrentAnsPrimaryName :=
  match stored with
  | none => incoming
  | some s =>
    if s.last_transaction_version ≤ incoming.last_transaction_version then
      { s with
        domain := incoming.domain
        subdomain := incoming.subdomain
        token_name := incoming.token_name
        is_deleted := incoming.is_deleted
        last_transaction_version := incoming.last_transaction_version
        inserted_at := incoming.inserted_at }
    else s

structure CurrentAnsLookupV2 where
  domain : String
  subdomain : String
  token_standard : String
  registered_address : Option String
  expiration_timestamp : Int
  last_transaction_version : Int
  token_name : String
  is_deleted : Bool
  inserted_at : Int
  subdomain_expiration_policy : Option Int
deriving Repr, DecidableEq

/-- `insert_current_ans_lookups_v2_query`: conflict on
`(domain, subdomain, token_standard)`, conditional update of the non-key
columns. -/
def upsertCurrentAnsLookupV2 (stored : Option CurrentAnsLookupV2)
    (incoming : CurrentAnsLookupV2) : CurrentAnsLookupV2 :=
  match stored with
  | none => incoming
  | some s =>
    if s.last_transaction_version ≤ incoming.last_transaction_version then
      { s with
        registered_address := incoming.registered_address
        expiration_timestamp := incoming.expiration_timestamp
        last_transaction_version := incoming.last_transaction_version
        token_name := incoming.token_name
        is_deleted := incoming.is_deleted
        inserted_at := incoming.inserted_at
        subdomain_expiration_policy := incoming.subdomain_expiration_policy }
    else s

structure CurrentAnsPrimaryNameV2 where
  registered_address : String
  token_standard : String
  domain : Option String
  subdomain : Option String
  token_name : Option String
  is_deleted : Bool
  last_transaction_version : Int
  inserted_at : Int
deriving Repr, DecidableEq

/-- `insert_current_ans_primary_names_v2_query`: conflict on
`(registered_address, token_standard)`, conditional update of the non-key
columns. -/
def upsertCurrentAnsPrimaryNameV2 (stored : Option CurrentAnsPrimaryNameV2)
    (incoming : CurrentAnsPrimaryNameV2) : CurrentAnsPrimaryNameV2 :=
  match stored with
  | none => incoming
  | some s =>
    if s.last_transaction_version ≤ incoming.last_transaction_version then
      { s with
        domain := incoming.domain
        subdomain := incoming.subdomain
        token_name := incoming.token_name
        is_deleted := incoming.is_deleted
        last_transaction_version := incoming.last_transaction_version
        inserted_at := incoming.inserted_at }
    else s

/-- C1: for each of the four ANS current-state tables, the upsert updates
the non-key columns of the stored row with the same composite key exactly
when `stored.last_transaction_version ≤ incoming.last_transaction_version`
(so an equal-version incoming row overwrites), leaves the stored row
unchanged when the incoming version is strictly smaller, and therefore the
stored watermark never decreases. -/
theorem ans_current_state_upsert_monotonic :
    (∀ s i : CurrentAnsLookup,
      (s.last_transaction_version ≤ i.last_transaction_version →
        upsertCurrentAnsLookup (some s) i =
          { s with
            registered_address := i.registered_address
            expiration_timestamp := i.expiration_timestamp
            last_transaction_version := i.last_transaction_version
            token_name := i.token_name
            is_deleted := i.is_deleted
            inserted_at := i.inserted_at }) ∧
      (i.last_transaction_version < s.last_transaction_version →
        upsertCurrentAnsLookup (some s) i = s) ∧
      s.last_transaction_version ≤
        (upsertCurrentAnsLookup (some s) i).last_transaction_version) ∧
    (∀ s i : CurrentAnsPrimaryName,
      (s.last_transaction_version ≤ i.last_transaction_version →
        upsertCurrentAnsPrimaryName (some s) i =
          { s with
            domain := i.domain
            subdomain := i.subdomain
            token_name := i.token_name
            is_deleted := i.is_deleted
            last_transaction_version := i.last_transaction_version
            inserted_at := i.inserted_at }) ∧
      (i.last_transaction_version < s.last_transaction_version →
        upsertCurrentAnsPrimaryName (some s) i = s) ∧
      s.last_transaction_version ≤
        (upsertCurrentAnsPrimaryName (some s) i).last_transaction_version) ∧
    (∀ s i : CurrentAnsLookupV2,
      (s.last_transaction_version ≤ i.last_transaction_version →
        upsertCurrentAnsLookupV2 (some s) i =
          { s with
            registered_address := i.registered_address
            expiration_timestamp := i.expiration_timestamp
            last_transaction_version := i.last_transaction_version
            token_name := i.token_name
            is_deleted := i.is_deleted
            inserted_at := i.inserted_at
            subdomain_expiration_policy := i.subdomain_expiration_policy }) ∧
      (i.last_transaction_version < s.last_transaction_version →
        upsertCurrentAnsLookupV2 (some s) i = s) ∧
      s.last_transaction_version ≤
        (upsertCurrentAnsLookupV2 (some s) i).last_transaction_version) ∧
    (∀ s i : CurrentAnsPrimaryNameV2,
      (s.last_transaction_version ≤ i.last_transaction_version →
        upsertCurrentAnsPrimaryNameV2 (some s) i =
          { s with
            domain := i.domain
            subdomain := i.subdomain
            token_name := i.token_name
            is_deleted := i.is_deleted
            last_transaction_version := i.last_transaction_version
            inserted_at := i.inserted_at }) ∧
      (i.last_transaction_version < s.last_transaction_version →
        upsertCurrentAnsPrimaryNameV2 (some s) i = s) ∧
      s.last_transaction_version ≤
        (upsertCurrentAnsPrimaryNameV2 (some s) i).last_transaction_version) := by
  refine ⟨?_, ?_, ?_, ?_⟩
  · intro s i
    refine ⟨fun h => by simp [upsertCurrentAnsLookup, h], fun h => ?_, ?_⟩
    · simp [upsertCurrentAnsLookup, not_le.mpr h]
    · unfold upsertCurrentAnsLookup
      by_cases h : s.last_transaction_version ≤ i.last_transaction_version
      · simp [h]
      · simp [h]
  · intro s i
    refine ⟨fun h => by simp [upsertCurrentAnsPrimaryName, h], fun h => ?_, ?_⟩
    · simp [upsertCurrentAnsPrimaryName, not_le.mpr h]
    · unfold upsertCurrentAnsPrimaryName
      by_cases h : s.last_transaction_version ≤ i.last_transaction_version
      · simp [h]
      · simp [h]
  · intro s i
    refine ⟨fun h => by simp [upsertCurrentAnsLookupV2, h], fun h => ?_, ?_⟩
    · simp [upsertCurrentAnsLookupV2, not_le.mpr h]
    · unfold upsertCurrentAnsLookupV2
      by_cases h : s.last_transaction_version ≤ i.last_transaction_version
      · simp [h]
      · simp [h]
  · intro s i
    refine ⟨fun h => by simp [upsertCurrentAnsPrimaryNameV2, h], fun h => ?_, ?_⟩
    · simp [upsertCurrentAnsPrimaryNameV2, not_le.mpr h]
    · unfold upsertCurrentAnsPrimaryNameV2
      by_cases h : s.last_transaction_version ≤ i.last_transaction_version
      · simp [h]
      · simp [h]

/-- Witness for C1: a higher-version incoming row overwrites the stored
row's non-key columns, and a strictly lower-version incoming row is
ignored, at concrete rows of `current_ans_lookup`. -/
theorem ans_current_state_upsert_monotonic_witness :
    upsertCurrentAnsLookup (some ⟨"aptos", "sub", none, 0, 5, "t", false, 0⟩)
        ⟨"aptos", "sub", some "0xr", 9, 7, "u", true, 1⟩ =
      ⟨"aptos", "sub", some "0xr", 9, 7, "u", true, 1⟩ ∧
    upsertCurrentAnsLookup (some ⟨"aptos", "sub", none, 0, 7, "t", false, 0⟩)
        ⟨"aptos", "sub", some "0xr", 9, 5, "u", true, 1⟩ =
      ⟨"aptos", "sub", none, 0, 7, "t", false, 0⟩ := by
  constructor
  · exact (ans_current_state_upsert_monotonic.1 _ _).1 (by decide)
  · exact (ans_current_state_upsert_monotonic.1 _ _).2.1 (by decide)

/-! ## ANS append-only activity tables
(src/rust/processor/src/processors/ans_processor.rs)

Row structures list the primary-key columns of each query's conflict target
and the columns its conflict clause names; the remaining columns of the row
are collapsed into one opaque `row_rest` field, which the queries never
mention individually. -/

structure AnsLookup where
  transaction_version : Int
  write_set_change_index : Int
  row_rest : String
deriving Repr, DecidableEq

/-- `insert_ans_lookups_query`: conflict on
`(transaction_version, write_set_change_index)`, `DO NOTHING`. -/
def insertAnsLookup (stored : Option AnsLookup) (incoming : AnsLookup) : AnsLookup :=
  match stored with
  | none => incoming
  | some s => s

structure AnsPrimaryName where
  transaction_version : Int
  write_set_change_index : Int
  row_rest : String
deriving Repr, DecidableEq

/-- `insert_ans_primary_names_query`: conflict on
`(transaction_version, write_set_change_index)`, `DO NOTHING`. -/
def insertAnsPrimaryName (stored : Option AnsPrimaryName)
    (incoming : AnsPrimaryName) : AnsPrimaryName :=
  match stored with
  | none => incoming
  | some s => s

structure AnsLookupV2 where
  transaction_version : Int
  write_set_change_index : Int
  inserted_at : Int
  subdomain_expiration_policy : Option Int
  row_rest : String
deriving Repr, DecidableEq

/-- `insert_ans_lookups_v2_query`: conflict on
`(transaction_version, write_set_change_index)`, then `DO UPDATE SET
inserted_at = excluded.inserted_at, subdomain_expiration_policy =
excluded.subdomain_expiration_policy` with no `WHERE` filter. -/
def insertAnsLookupV2 (stored : Option AnsLookupV2)
    (incoming : AnsLookupV2) : AnsLookupV2 :=
  match stored with
  | none => incoming
  | some s =>
    { s with
      inserted_at := incoming.inserted_at
      subdomain_expiration_policy := incoming.subdomain_expiration_policy }

structure AnsPrimaryNameV2 where
  transaction_version : Int
  write_set_change_index : Int
  row_rest : String
deriving Repr, DecidableEq

/-- `insert_ans_primary_names_v2_query`: conflict on
`(transaction_version, write_set_change_index)`, `DO NOTHING`. -/
def insertAnsPrimaryNameV2 (stored : Option AnsPrimaryNameV2)
    (incoming : AnsPrimaryNameV2) : AnsPrimaryNameV2 :=
  match stored with
  | none => incoming
  | some s => s

/-- Counterexample for C3: the `ans_lookup_v2` insert is not a
conflict-do-nothing — re-inserting a row whose primary key already exists
changes the stored row (here its `subdomain_expiration_policy`). -/
theorem ans_lookup_v2_replay_not_noop :
    insertAnsLookupV2 (some ⟨1, 0, 10, none, "r"⟩) ⟨1, 0, 11, some 3, "r"⟩ ≠
      ⟨1, 0, 10, none, "r"⟩ := by
  decide

/-- C3 (amended): `ans_lookup`, `ans_primary_name` and `ans_primary_name_v2`
insert with conflict-do-nothing on the full primary key, so replay leaves
the stored row unchanged; `ans_lookup_v2` instead updates exactly its
`inserted_at` and `subdomain_expiration_policy` columns from the incoming
row on conflict, keeping every other stored column. -/
theorem ans_activity_tables_conflict_rules :
    (∀ s i : AnsLookup, insertAnsLookup (some s) i = s) ∧
    (∀ s i : AnsPrimaryName, insertAnsPrimaryName (some s) i = s) ∧
    (∀ s i : AnsPrimaryNameV2, insertAnsPrimaryNameV2 (some s) i = s) ∧
    (∀ s i : AnsLookupV2,
      insertAnsLookupV2 (some s) i =
        { s with
          inserted_at := i.inserted_at
          subdomain_expiration_policy := i.subdomain_expiration_policy }) := by
  exact ⟨fun s i => rfl, fun s i => rfl, fun s i => rfl, fun s i => rfl⟩

/-! ## In-batch reconciliation: `parse_ans`
(src/rust/processor/src/processors/ans_processor.rs)

We model the `current_ans_lookup` projection of `parse_ans`: of its eight
outputs, the map `all_current_ans_lookups`, which the v1
`WriteTableItem`/`DeleteTableItem` branches populate with
`all_current_ans_lookups.insert(row.pk(), row)` and which is finally
collected into a sorted vector.  The other three current-state maps are
reconciled by the same `AHashMap` insert.  The per-item decoders
(`CurrentAnsLookup::parse_name_record_from_write_table_item_v1` and the
delete counterpart, in `db/common/models/ans_models`, not part of the
excerpt) are modelled from the spec: a change carries its decoded outcome
directly, `none` standing both for non-ANS changes and for per-item decode
failures, which the source drops with a log (`.map_err(..).ok().flatten()`)
and continues. -/

/-- The `AHashMap` as an association list; `hashMapInsert` replaces the
binding of an existing key and otherwise appends, matching
`AHashMap::insert`. -/
def hashMapInsert {α β : Type} [DecidableEq α] : List (α × β) → α → β → List (α × β)
  | [], k, v => [(k, v)]
  | (k2, v2) :: rest, k, v =>
    if k2 = k then (k, v) :: rest else (k2, v2) :: hashMapInsert rest k v

def hashMapLookup {α β : Type} [DecidableEq α] : List (α × β) → α → Option β
  | [], _ => none
  | (k2, v2) :: rest, k => if k2 = k then some v2 else hashMapLookup rest k

/-- Folding a stream of keyed updates into the map, in stream order. -/
def applyUpdates {α β : Type} [DecidableEq α] (m : List (α × β))
    (updates : List (α × β)) : List (α × β) :=
  updates.foldl (fun acc kv => hashMapInsert acc kv.1 kv.2) m

/-- The value of the last update for key `k` in stream order, if any. -/
def lastValueFor {α β : Type} [DecidableEq α] : List (α × β) → α → Option β
  | [], _ => none
  | u :: rest, k =>
    match lastValueFor rest k with
    | some v => some v
    | none => if u.1 = k then some u.2 else none

/-- Modelled from the spec: the decoded content of an ANS v1 name-record
write table item (the decoder itself is outside the excerpt). -/
structure NameRecordV1 where
  domain : String
  subdomain : String
  registered_address : Option String
  expiration_timestamp : Int
  token_name : String
  is_deleted : Bool
deriving Repr, DecidableEq

/-- One write-set change as seen by the ANS v1 extractor, carrying the
decoded outcome of the (out-of-excerpt) table-item decoder. -/
inductive AnsWriteSetChange where
  | writeTableItem (rec : Option NameRecordV1)
  | deleteTableItem (key : Option (String × String))
  | otherChange
deriving Repr, DecidableEq

/-- One transaction as consumed by `parse_ans`: its version, its optional
protobuf `timestamp`, and `txn_data` — `none` covers both a missing
`txn_data` (skipped with the unknown-type counter) and a non-user
transaction (skipped by the `TxnData::User` match). -/
structure AnsTransaction where
  version : Int
  timestamp : Option Int
  txnData : Option (List AnsWriteSetChange)
deriving Repr, DecidableEq

/-- Composite key of `current_ans_lookup` (`CurrentAnsLookup::pk`,
conflict target `(domain, subdomain)`). -/
def CurrentAnsLookup.pk (r : CurrentAnsLookup) : String × String :=
  (r.domain, r.subdomain)

/-- The `current_ans_lookup` row built for a decoded v1 write at a
transaction version (`last_transaction_version` is the extracting
transaction's version). -/
def makeCurrentAnsLookup (version : Int) (rec : NameRecordV1) : CurrentAnsLookup :=
  { domain := rec.domain
    subdomain := rec.subdomain
    registered_address := rec.registered_address
    expiration_timestamp := rec.expiration_timestamp
    last_transaction_version := version
    token_name := rec.token_name
    is_deleted := rec.is_deleted
    inserted_at := 0 }

/-- Modelled from the spec: the row built for a v1 delete table item — the
deleted/zeroed marker row at the deleting version, not a removal. -/
def makeDeletedCurrentAnsLookup (version : Int) (k : String × String) : CurrentAnsLookup :=
  { domain := k.1
    subdomain := k.2
    registered_address := none
    expiration_timestamp := 0
    last_transaction_version := version
    token_name := if k.2 = "" then k.1 ++ ".apt" else k.2 ++ "." ++ k.1 ++ ".apt"
    is_deleted := true
    inserted_at := 0 }

/-- The keyed `current_ans_lookup` update produced by one write-set change
of a transaction, if any. -/
def ansChangeUpdate (version : Int) :
    AnsWriteSetChange → Option ((String × String) × CurrentAnsLookup)
  | .writeTableItem (some rec) =>
    some ((rec.domain, rec.subdomain), makeCurrentAnsLookup version rec)
  | .deleteTableItem (some k) => some (k, makeDeletedCurrentAnsLookup version k)
  | _ => none

/-- The keyed updates one transaction contributes, in write-set-change
order. -/
def txnUpdates (txn : AnsTransaction) : List ((String × String) × CurrentAnsLookup) :=
  match txn.txnData with
  | none => []
  | some changes => changes.filterMap (ansChangeUpdate txn.version)

/-- All keyed updates of a batch, in extraction order. -/
def allUpdates : List AnsTransaction → List ((String × String) × CurrentAnsLookup)
  | [] => []
  | t :: ts => txnUpdates t ++ allUpdates ts

/-- The `all_current_ans_lookups` map after the `parse_ans` loops: each
transaction's updates inserted in order into the shared `AHashMap`. -/
def parseAnsMap (transactions : List AnsTransaction) :
    List ((String × String) × CurrentAnsLookup) :=
  transactions.foldl (fun m txn => applyUpdates m (txnUpdates txn)) []

/-- Key order used for the final `all_current_ans_lookups.sort()`
(spec §4.5: output sorted by composite key). -/
def pkLt (a b : CurrentAnsLookup) : Prop :=
  a.domain < b.domain ∨ (a.domain = b.domain ∧ a.subdomain ≤ b.subdomain)

instance : DecidableRel pkLt := fun a b => by
  unfold pkLt
  infer_instance

/-- The `current_ans_lookup` output of `parse_ans`: the reconciled map's
values, sorted (`into_values` + `sort`). -/
def parse_ans (transactions : List AnsTransaction) : List CurrentAnsLookup :=
  List.insertionSort pkLt ((parseAnsMap transactions).map Prod.snd)

/-- The last `current_ans_lookup` row produced for a key in extraction
order, if any. -/
def lastRowFor (transactions : List AnsTransaction) (k : String × String) :
    Option CurrentAnsLookup :=
  lastValueFor (allUpdates transactions) k

theorem hashMapLookup_insert {α β : Type} [DecidableEq α]
    (m : List (α × β)) (k k2 : α) (v : β) :
    hashMapLookup (hashMapInsert m k v) k2 =
      if k = k2 then some v else hashMapLookup m k2 := by
  induction m with
  | nil => simp [hashMapInsert, hashMapLookup]
  | cons kv rest ih =>
    obtain ⟨ka, va⟩ := kv
    by_cases hka : ka = k
    · subst hka
      by_cases hk2 : ka = k2 <;> simp [hashMapInsert, hashMapLookup, hk2]
    · by_cases hk2 : ka = k2
      · subst hk2
        have : ¬ k = ka := fun h => hka h.symm
        simp [hashMapInsert, hashMapLookup, hka, this]
      · simp [hashMapInsert, hashMapLookup, hka, hk2, ih]

theorem mem_hashMapInsert {α β : Type} [DecidableEq α]
    {m : List (α × β)} {k : α} {v : β} {kv : α × β}
    (h : kv ∈ hashMapInsert m k v) : kv ∈ m ∨ kv = (k, v) := by
  induction m with
  | nil => simpa [hashMapInsert] using h
  | cons kv2 rest ih =>
    obtain ⟨ka, va⟩ := kv2
    by_cases hka : ka = k
    · subst hka
      simp only [hashMapInsert, eq_self_iff_true, if_true, List.mem_cons] at h
      rcases h with h | h
      · exact Or.inr h
      · exact Or.inl (List.mem_cons_of_mem _ h)
    · simp only [hashMapInsert, if_neg hka, List.mem_cons] at h
      rcases h with h | h
      · exact Or.inl (by simp [h])
      · rcases ih h with h2 | h2
        · exact Or.inl (List.mem_cons_of_mem _ h2)
        · exact Or.inr h2

theorem hashMapInsert_keys_nodup {α β : Type} [DecidableEq α]
    {m : List (α × β)} (k : α) (v : β)
    (h : (m.map Prod.fst).Nodup) :
    ((hashMapInsert m k v).map Prod.fst).Nodup := by
  induction m with
  | nil => simp [hashMapInsert]
  | cons kv rest ih =>
    obtain ⟨ka, va⟩ := kv
    simp only [List.map_cons, List.nodup_cons] at h
    obtain ⟨hnotin, hrest⟩ := h
    by_cases hka : ka = k
    · subst hka
      have hred : hashMapInsert ((ka, va) :: rest) ka v = (ka, v) :: rest := by
        simp [hashMapInsert]
      rw [hred, List.map_cons]
      exact List.nodup_cons.mpr ⟨hnotin, hrest⟩
    · have hred : hashMapInsert ((ka, va) :: rest) k v =
          (ka, va) :: hashMapInsert rest k v := by
        simp [hashMapInsert, hka]
      rw [hred, List.map_cons]
      refine List.nodup_cons.mpr ⟨?_, ih hrest⟩
      intro hmem
      rcases List.mem_map.mp hmem with ⟨kv2, hkv2, hfst⟩
      rcases mem_hashMapInsert hkv2 with h2 | h2
      · exact hnotin (List.mem_map.mpr ⟨kv2, h2, hfst⟩)
      · rw [h2] at hfst
        exact hka hfst.symm

theorem hashMapLookup_eq_none {α β : Type} [DecidableEq α]
    {m : List (α × β)} {k : α} (h : k ∉ m.map Prod.fst) :
    hashMapLookup m k = none := by
  induction m with
  | nil => rfl
  | cons kv rest ih =>
    obtain ⟨ka, va⟩ := kv
    simp only [List.map_cons, List.mem_cons] at h
    push_neg at h
    have : ka ≠ k := fun he => h.1 he.symm
    simp [hashMapLookup, this, ih h.2]

/-- In a map with distinct keys in which every value determines its own key
(through `f`), the values matching key `k` are exactly the looked-up value. -/
theorem filter_values_eq_lookup {α β : Type} [DecidableEq α] (f : β → α)
    (m : List (α × β)) (hkeys : (m.map Prod.fst).Nodup)
    (hinv : ∀ kv ∈ m, f kv.2 = kv.1) (k : α) :
    (m.map Prod.snd).filter (fun v => decide (f v = k)) =
      (hashMapLookup m k).toList := by
  induction m with
  | nil => rfl
  | cons kv rest ih =>
    obtain ⟨ka, va⟩ := kv
    simp only [List.map_cons, List.nodup_cons] at hkeys
    obtain ⟨hnotin, hrest⟩ := hkeys
    have hva : f va = ka := hinv (ka, va) (List.mem_cons_self _ _)
    have hinv2 : ∀ kv ∈ rest, f kv.2 = kv.1 :=
      fun kv hkv => hinv kv (List.mem_cons_of_mem _ hkv)
    by_cases hka : ka = k
    · subst hka
      have hnone : hashMapLookup rest ka = none := hashMapLookup_eq_none hnotin
      have hempty : (rest.map Prod.snd).filter (fun v => decide (f v = ka)) = [] := by
        rw [ih hrest hinv2, hnone]
        rfl
      simp [hashMapLookup, List.filter_cons, hva, hempty]
    · have : ¬ f va = k := by rw [hva]; exact hka
      simp [hashMapLookup, List.filter_cons, this, hka, ih hrest hinv2]

theorem lookup_applyUpdates {α β : Type} [DecidableEq α]
    (updates : List (α × β)) (m : List (α × β)) (k : α) :
    hashMapLookup (applyUpdates m updates) k =
      match lastValueFor updates k with
      | some v => some v
      | none => hashMapLookup m k := by
  induction updates generalizing m with
  | nil => simp [applyUpdates, lastValueFor]
  | cons u rest ih =>
    have step : applyUpdates m (u :: rest) = applyUpdates (hashMapInsert m u.1 u.2) rest := rfl
    rw [step, ih]
    have hcons : lastValueFor (u :: rest) k =
        match lastValueFor rest k with
        | some v => some v
        | none => if u.1 = k then some u.2 else none := rfl
    rw [hcons]
    cases hrest : lastValueFor rest k with
    | some v => rfl
    | none =>
      rw [hashMapLookup_insert]
      by_cases hk : u.1 = k <;> simp [hk]

theorem applyUpdates_good {α β : Type} [DecidableEq α] (f : β → α)
    (updates : List (α × β)) (m : List (α × β))
    (hkeys : (m.map Prod.fst).Nodup) (hinv : ∀ kv ∈ m, f kv.2 = kv.1)
    (hupd : ∀ u ∈ updates, f u.2 = u.1) :
    ((applyUpdates m updates).map Prod.fst).Nodup ∧
      ∀ kv ∈ applyUpdates m updates, f kv.2 = kv.1 := by
  induction updates generalizing m with
  | nil => exact ⟨hkeys, hinv⟩
  | cons u rest ih =>
    have step : applyUpdates m (u :: rest) = applyUpdates (hashMapInsert m u.1 u.2) rest := rfl
    rw [step]
    refine ih (hashMapInsert m u.1 u.2) (hashMapInsert_keys_nodup _ _ hkeys) ?_
      (fun v hv => hupd v (List.mem_cons_of_mem _ hv))
    intro kv hkv
    rcases mem_hashMapInsert hkv with h | h
    · exact hinv kv h
    · rw [h]
      exact hupd u (List.mem_cons_self _ _)

theorem lastValueFor_append {α β : Type} [DecidableEq α]
    (l1 l2 : List (α × β)) (k : α) :
    lastValueFor (l1 ++ l2) k =
      match lastValueFor l2 k with
      | some v => some v
      | none => lastValueFor l1 k := by
  induction l1 with
  | nil =>
    cases h : lastValueFor l2 k <;> simp [lastValueFor, h]
  | cons u rest ih =>
    have hconsL : lastValueFor (u :: rest ++ l2) k =
        match lastValueFor (rest ++ l2) k with
        | some v => some v
        | none => if u.1 = k then some u.2 else none := rfl
    have hconsR : lastValueFor (u :: rest) k =
        match lastValueFor rest k with
        | some v => some v
        | none => if u.1 = k then some u.2 else none := rfl
    rw [hconsL, ih, hconsR]
    cases h2 : lastValueFor l2 k with
    | some v => rfl
    | none => cases lastValueFor rest k <;> rfl

theorem lastValueFor_mem {α β : Type} [DecidableEq α]
    {l : List (α × β)} {k : α} {v : β}
    (h : lastValueFor l k = some v) : (k, v) ∈ l := by
  induction l with
  | nil => simp [lastValueFor] at h
  | cons u rest ih =>
    unfold lastValueFor at h
    cases hrest : lastValueFor rest k with
    | some w =>
      rw [hrest] at h
      exact List.mem_cons_of_mem _ (ih (hrest.trans (by injection h with h2; rw [h2])))
    | none =>
      rw [hrest] at h
      by_cases hk : u.1 = k
      · simp only [if_pos hk] at h
        injection h with h2
        have : u = (k, v) := by
          obtain ⟨u1, u2⟩ := u
          simp only at hk h2
          rw [hk, h2]
        exact this ▸ List.mem_cons_self _ _
      · simp [hk] at h

theorem lastValueFor_eq_none {α β : Type} [DecidableEq α]
    {l : List (α × β)} {k : α}
    (h : lastValueFor l k = none) : ∀ u ∈ l, u.1 ≠ k := by
  induction l with
  | nil => intro u hu; simp at hu
  | cons u rest ih =>
    unfold lastValueFor at h
    cases hrest : lastValueFor rest k with
    | some w => rw [hrest] at h; exact absurd h (by simp)
    | none =>
      rw [hrest] at h
      intro w hw
      rcases List.mem_cons.mp hw with hweq | hwrest
      · subst hweq
        intro hk
        rw [if_pos hk] at h
        exact absurd h (by simp)
      · exact ih hrest w hwrest

theorem txnUpdates_version {t : AnsTransaction}
    {u : (String × String) × CurrentAnsLookup} (h : u ∈ txnUpdates t) :
    u.2.last_transaction_version = t.version := by
  unfold txnUpdates at h
  cases htd : t.txnData with
  | none => rw [htd] at h; simp at h
  | some changes =>
    rw [htd] at h
    rcases List.mem_filterMap.mp h with ⟨ch, _, hch⟩
    cases ch with
    | writeTableItem rec =>
      cases rec with
      | none => simp [ansChangeUpdate] at hch
      | some r =>
        simp only [ansChangeUpdate, Option.some.injEq] at hch
        rw [← hch]
        rfl
    | deleteTableItem key =>
      cases key with
      | none => simp [ansChangeUpdate] at hch
      | some k =>
        simp only [ansChangeUpdate, Option.some.injEq] at hch
        rw [← hch]
        rfl
    | otherChange => simp [ansChangeUpdate] at hch

theorem txnUpdates_pk {t : AnsTransaction}
    {u : (String × String) × CurrentAnsLookup} (h : u ∈ txnUpdates t) :
    u.2.pk = u.1 := by
  unfold txnUpdates at h
  cases htd : t.txnData with
  | none => rw [htd] at h; simp at h
  | some changes =>
    rw [htd] at h
    rcases List.mem_filterMap.mp h with ⟨ch, _, hch⟩
    cases ch with
    | writeTableItem rec =>
      cases rec with
      | none => simp [ansChangeUpdate] at hch
      | some r =>
        simp only [ansChangeUpdate, Option.some.injEq] at hch
        rw [← hch]
        rfl
    | deleteTableItem key =>
      cases key with
      | none => simp [ansChangeUpdate] at hch
      | some k =>
        simp only [ansChangeUpdate, Option.some.injEq] at hch
        rw [← hch]
        rfl
    | otherChange => simp [ansChangeUpdate] at hch

theorem mem_allUpdates {txs : List AnsTransaction}
    {u : (String × String) × CurrentAnsLookup} :
    u ∈ allUpdates txs ↔ ∃ t ∈ txs, u ∈ txnUpdates t := by
  induction txs with
  | nil => simp [allUpdates]
  | cons t ts ih =>
    show u ∈ txnUpdates t ++ allUpdates ts ↔ _
    rw [List.mem_append, ih]
    constructor
    · rintro (h | ⟨t2, ht2, hu⟩)
      · exact ⟨t, List.mem_cons_self _ _, h⟩
      · exact ⟨t2, List.mem_cons_of_mem _ ht2, hu⟩
    · rintro ⟨t2, ht2, hu⟩
      rcases List.mem_cons.mp ht2 with heq | hmem
      · exact Or.inl (heq ▸ hu)
      · exact Or.inr ⟨t2, hmem, hu⟩

theorem parseAnsMap_eq (txs : List AnsTransaction) :
    parseAnsMap txs = applyUpdates [] (allUpdates txs) := by
  have aux : ∀ (ts : List AnsTransaction) (m : List ((String × String) × CurrentAnsLookup)),
      ts.foldl (fun acc txn => applyUpdates acc (txnUpdates txn)) m =
        applyUpdates m (allUpdates ts) := by
    intro ts
    induction ts with
    | nil => intro m; rfl
    | cons t rest ih =>
      intro m
      show rest.foldl _ (applyUpdates m (txnUpdates t)) =
        applyUpdates m (txnUpdates t ++ allUpdates rest)
      rw [ih]
      show applyUpdates (applyUpdates m (txnUpdates t)) (allUpdates rest) = _
      unfold applyUpdates
      rw [List.foldl_append]
  exact aux txs []

theorem lastRowFor_max_of_sorted :
    ∀ txs : List AnsTransaction,
      txs.Pairwise (fun a b => a.version ≤ b.version) →
      ∀ (k : String × String) (r : CurrentAnsLookup),
        lastValueFor (allUpdates txs) k = some r →
        ∀ u ∈ allUpdates txs, u.1 = k →
          u.2.last_transaction_version ≤ r.last_transaction_version := by
  intro txs
  induction txs with
  | nil =>
    intro _ k r hr
    simp [allUpdates, lastValueFor] at hr
  | cons t ts ih =>
    intro hsorted k r hr u hu huk
    rw [List.pairwise_cons] at hsorted
    obtain ⟨hhead, hts⟩ := hsorted
    have hsplit : allUpdates (t :: ts) = txnUpdates t ++ allUpdates ts := rfl
    rw [hsplit] at hr hu
    rw [lastValueFor_append] at hr
    rcases List.mem_append.mp hu with hut | huts
    · have hver_u : u.2.last_transaction_version = t.version := txnUpdates_version hut
      cases hts2 : lastValueFor (allUpdates ts) k with
      | some v =>
        simp only [hts2, Option.some.injEq] at hr
        have hmem := lastValueFor_mem hts2
        obtain ⟨t2, ht2, hrt2⟩ := mem_allUpdates.mp hmem
        have hver_r : v.last_transaction_version = t2.version := txnUpdates_version hrt2
        rw [hver_u, ← hr, hver_r]
        exact hhead t2 ht2
      | none =>
        simp only [hts2] at hr
        have hmem := lastValueFor_mem hr
        have hver_r : r.last_transaction_version = t.version := txnUpdates_version hmem
        rw [hver_u, hver_r]
    · cases hts2 : lastValueFor (allUpdates ts) k with
      | some v =>
        simp only [hts2, Option.some.injEq] at hr
        rw [← hr]
        exact ih hts k v hts2 u huts huk
      | none => exact absurd huk (lastValueFor_eq_none hts2 u huts)

/-- Counterexample for C2: `parse_ans` reconciles by `AHashMap` overwrite in
iteration order, with no version comparison — with updates to the same key
at versions 7 and 5 in that order, the result is the version-5 row, not the
version-7 row. -/
theorem parse_ans_not_version_ordered :
    parse_ans
        [⟨7, none, some [.writeTableItem (some ⟨"aptos", "", some "0x7", 100, "aptos.apt", false⟩)]⟩,
         ⟨5, none, some [.writeTableItem (some ⟨"aptos", "", some "0x5", 100, "aptos.apt", false⟩)]⟩] =
      [makeCurrentAnsLookup 5 ⟨"aptos", "", some "0x5", 100, "aptos.apt", false⟩] ∧
    parse_ans
        [⟨7, none, some [.writeTableItem (some ⟨"aptos", "", some "0x7", 100, "aptos.apt", false⟩)]⟩,
         ⟨5, none, some [.writeTableItem (some ⟨"aptos", "", some "0x5", 100, "aptos.apt", false⟩)]⟩] ≠
      [makeCurrentAnsLookup 7 ⟨"aptos", "", some "0x7", 100, "aptos.apt", false⟩] ∧
    (makeCurrentAnsLookup 5
      ⟨"aptos", "", some "0x5", 100, "aptos.apt", false⟩).last_transaction_version = 5 := by
  refine ⟨by decide, by decide, by decide⟩

/-- C2 (amended): `parse_ans` returns, for each composite key appearing in
its extraction output, exactly one `current_ans_lookup` row — the row
produced *last in extraction order* for that key (`AHashMap` overwrite in
iteration order, no version comparison); when the batch is ordered by
non-decreasing transaction version, as the input contract guarantees, that
row has the highest transaction version among the key's updates. -/
theorem parse_ans_last_write_wins (transactions : List AnsTransaction)
    (k : String × String) :
    (parse_ans transactions).filter (fun r => decide (r.pk = k)) =
      (lastRowFor transactions k).toList ∧
    (transactions.Pairwise (fun a b => a.version ≤ b.version) →
      ∀ r, lastRowFor transactions k = some r →
        ∀ u ∈ allUpdates transactions, u.1 = k →
          u.2.last_transaction_version ≤ r.last_transaction_version) := by
  constructor
  · have hupd : ∀ u ∈ allUpdates transactions, CurrentAnsLookup.pk u.2 = u.1 := by
      intro u hu
      obtain ⟨t, _, hut⟩ := mem_allUpdates.mp hu
      exact txnUpdates_pk hut
    have hgood := applyUpdates_good CurrentAnsLookup.pk (allUpdates transactions) []
      (by simp) (by simp) hupd
    have hfilter := filter_values_eq_lookup CurrentAnsLookup.pk
      (applyUpdates [] (allUpdates transactions)) hgood.1 hgood.2 k
    have hlast : hashMapLookup (applyUpdates [] (allUpdates transactions)) k =
        lastRowFor transactions k := by
      rw [lookup_applyUpdates]
      unfold lastRowFor
      cases lastValueFor (allUpdates transactions) k <;> rfl
    have hperm : List.Perm
        ((parse_ans transactions).filter (fun r => decide (r.pk = k)))
        (((applyUpdates [] (allUpdates transactions)).map Prod.snd).filter
          (fun r => decide (r.pk = k))) := by
      unfold parse_ans
      rw [parseAnsMap_eq]
      exact (List.perm_insertionSort pkLt _).filter _
    rw [hfilter, hlast] at hperm
    cases hcase : lastRowFor transactions k with
    | none =>
      rw [hcase] at hperm
      exact hperm.eq_nil
    | some r =>
      rw [hcase] at hperm
      exact List.perm_singleton.mp hperm
  · intro hsorted r hr u hu huk
    exact lastRowFor_max_of_sorted transactions hsorted k r hr u hu huk

/-- Witness for C2: on a version-ordered batch with updates to the key
`("aptos", "")` at versions 5 then 7, the single retained row is the
version-7 row, and the version-5 update is dominated by it. -/
theorem parse_ans_last_write_wins_witness :
    (parse_ans
        [⟨5, none, some [.writeTableItem (some ⟨"aptos", "", some "0x5", 100, "aptos.apt", false⟩)]⟩,
         ⟨7, none, some [.writeTableItem (some ⟨"aptos", "", some "0x7", 100, "aptos.apt", false⟩)]⟩]).filter
        (fun r => decide (r.pk = ("aptos", ""))) =
      (lastRowFor
        [⟨5, none, some [.writeTableItem (some ⟨"aptos", "", some "0x5", 100, "aptos.apt", false⟩)]⟩,
         ⟨7, none, some [.writeTableItem (some ⟨"aptos", "", some "0x7", 100, "aptos.apt", false⟩)]⟩]
        ("aptos", "")).toList ∧
    (makeCurrentAnsLookup 5
        ⟨"aptos", "", some "0x5", 100, "aptos.apt", false⟩).last_transaction_version ≤
      (makeCurrentAnsLookup 7
        ⟨"aptos", "", some "0x7", 100, "aptos.apt", false⟩).last_transaction_version := by
  constructor
  · exact (parse_ans_last_write_wins
      [⟨5, none, some [.writeTableItem (some ⟨"aptos", "", some "0x5", 100, "aptos.apt", false⟩)]⟩,
       ⟨7, none, some [.writeTableItem (some ⟨"aptos", "", some "0x7", 100, "aptos.apt", false⟩)]⟩]
      ("aptos", "")).1
  · exact (parse_ans_last_write_wins
      [⟨5, none, some [.writeTableItem (some ⟨"aptos", "", some "0x5", 100, "aptos.apt", false⟩)]⟩,
       ⟨7, none, some [.writeTableItem (some ⟨"aptos", "", some "0x7", 100, "aptos.apt", false⟩)]⟩]
      ("aptos", "")).2 (by decide)
      (makeCurrentAnsLookup 7 ⟨"aptos", "", some "0x7", 100, "aptos.apt", false⟩) (by decide)
      (("aptos", ""), makeCurrentAnsLookup 5 ⟨"aptos", "", some "0x5", 100, "aptos.apt", false⟩)
      (by decide) rfl

/-! ## `AnsProcessor::process_transactions`
(src/rust/processor/src/processors/ans_processor.rs) -/

structure DefaultProcessingResult where
  start_version : Nat
  end_version : Nat
  last_transaction_timestamp : Option Int
  current_ans_lookups : List CurrentAnsLookup
deriving Repr, DecidableEq

/-- `AnsProcessor::process_transactions`: before any other work it reads
`transactions.last().unwrap().timestamp.clone()` — the `unwrap` panics on an
empty batch (panic modelled as `none`) — then extracts with `parse_ans`.
The database insertion step (`insert_to_db`) is I/O outside the shallow
embedding; the result record carries the version range, the last
transaction's (optional) timestamp and the reconciled rows. -/
def process_transactions (transactions : List AnsTransaction)
    (start_version end_version : Nat) : Option DefaultProcessingResult :=
  match transactions.getLast? with
  | none => none
  | some last =>
    some
      { start_version := start_version
        end_version := end_version
        last_transaction_timestamp := last.timestamp
        current_ans_lookups := parse_ans transactions }

/-- C10: `process_transactions` panics (returns the panic value) on an empty
batch, because it dereferences the last transaction before any other work;
every non-empty batch passes that initial `last().unwrap()` and produces a
result. -/
theorem ans_process_transactions_requires_nonempty :
    (∀ s e : Nat, process_transactions [] s e = none) ∧
    (∀ (txs : List AnsTransaction) (t : AnsTransaction) (s e : Nat),
      process_transactions (txs ++ [t]) s e =
        some
          { start_version := s
            end_version := e
            last_transaction_timestamp := t.timestamp
            current_ans_lookups := parse_ans (txs ++ [t]) }) := by
  constructor
  · intro s e
    rfl
  · intro txs t s e
    simp [process_transactions, List.getLast?_concat]

/-! ## Fungible-asset supply decoding
(src/rust/processor/src/db/common/models/fungible_asset_models/v2_fungible_asset_utils.rs)

JSON payloads are modelled by a small value type; serde's
`deserialize_from_string` (utils/util.rs) parses a JSON string as a
big-integer value, `BigDecimal` being modelled as `Int`. -/

inductive Json where
  | str (s : String)
  | num (n : Int)
  | bool (b : Bool)
  | null
  | obj (fields : List (String × Json))
  | arr (items : List Json)

/-- Decimal digit value of a character, `none` otherwise. -/
def digitVal (c : Char) : Option Nat :=
  if '0' ≤ c ∧ c ≤ '9' then some (c.toNat - '0'.toNat) else none

def parseNatDigits : List Char → Nat → Option Nat
  | [], acc => some acc
  | c :: cs, acc =>
    match digitVal c with
    | some d => parseNatDigits cs (acc * 10 + d)
    | none => none

/-- Decimal-integer parse of a string (the `FromStr` impl behind
`deserialize_from_string` for big-integer fields): optional leading minus
sign, then at least one decimal digit. -/
def parseIntString (s : String) : Option Int :=
  match s.data with
  | [] => none
  | '-' :: rest =>
    if rest = [] then none else (parseNatDigits rest 0).map (fun n => -(n : Int))
  | cs => (parseNatDigits cs 0).map (fun n => (n : Int))

/-- `deserialize_from_string`: accept a JSON string and parse it as an
integer. -/
def deserialize_from_string : Json → Option Int
  | .str s => parseIntString s
  | _ => none

/-- `OptionalBigDecimal { vec: Vec<BigDecimalWrapper> }` — the wrapped
optional representation of on-chain `Option<u128>`. -/
structure OptionalBigDecimal where
  vec : List Int
deriving Repr, DecidableEq

/-- serde decode of `OptionalBigDecimal`: an object with a `vec` array
whose every element goes through `deserialize_from_string`. -/
def OptionalBigDecimal.fromJson (j : Json) : Option OptionalBigDecimal :=
  match j with
  | .obj fields =>
    match List.lookup "vec" fields with
    | some (.arr items) => (items.mapM deserialize_from_string).map OptionalBigDecimal.mk
    | _ => none
  | _ => none

structure FungibleAssetSupply where
  current : Int
  maximum : OptionalBigDecimal
deriving Repr, DecidableEq

/-- serde decode of `FungibleAssetSupply { current, maximum }`. -/
def FungibleAssetSupply.fromJson (j : Json) : Option FungibleAssetSupply :=
  match j with
  | .obj fields => do
    let cur ← deserialize_from_string (← List.lookup "current" fields)
    let maxi ← OptionalBigDecimal.fromJson (← List.lookup "maximum" fields)
    pure { current := cur, maximum := maxi }
  | _ => none

/-- `FungibleAssetSupply::get_maximum`:
`self.maximum.vec.first().map(|x| x.0.clone())`. -/
def FungibleAssetSupply.get_maximum (s : FungibleAssetSupply) : Option Int :=
  s.maximum.vec.head?

/-- C8: `{"current":"100","maximum":{"vec":["5000"]}}` decodes to
current 100 with `get_maximum` `some 5000`;
`{"current":"0","maximum":{"vec":[]}}` decodes to current 0 with
`get_maximum` `none`; in general `get_maximum` is the head of the `vec`
wrapper — `some` of the first element when non-empty, `none` when empty. -/
theorem fungible_asset_supply_optional_maximum :
    FungibleAssetSupply.fromJson
        (.obj [("current", .str "100"), ("maximum", .obj [("vec", .arr [.str "5000"])])]) =
      some { current := 100, maximum := ⟨[5000]⟩ } ∧
    (FungibleAssetSupply.mk 100 ⟨[5000]⟩).get_maximum = some 5000 ∧
    FungibleAssetSupply.fromJson
        (.obj [("current", .str "0"), ("maximum", .obj [("vec", .arr [])])]) =
      some { current := 0, maximum := ⟨[]⟩ } ∧
    (FungibleAssetSupply.mk 0 ⟨[]⟩).get_maximum = none ∧
    (∀ (c x : Int) (xs : List Int),
      (FungibleAssetSupply.mk c ⟨x :: xs⟩).get_maximum = some x) ∧
    (∀ c : Int, (FungibleAssetSupply.mk c ⟨[]⟩).get_maximum = none) := by
  refine ⟨by decide, rfl, by decide, rfl, ?_, ?_⟩
  · intro c x xs
    rfl
  · intro c
    rfl

/-! ## Coin activities
(src/rust/processor/src/db/common/models/coin_models/coin_activities.rs) -/

/-- `APTOS_COIN_TYPE_STR` (utils/util.rs). -/
def APTOS_COIN_TYPE_STR : String := "0x1::aptos_coin::AptosCoin"

/-- Modelled from the spec: the gas-fee activity type and synthetic event
identifiers, constants of
fungible_asset_models/v2_fungible_asset_activities.rs (not in the
excerpt). -/
def GAS_FEE_EVENT : String := "0x1::aptos_coin::GasFeeEvent"

def BURN_GAS_EVENT_CREATION_NUM : Int := 0

def BURN_GAS_EVENT_INDEX : Int := -1

structure TransactionInfo where
  gas_used : Nat
  success : Bool
deriving Repr, DecidableEq

/-- Modelled from the spec: the outcome of
`Signature::get_fee_payer_address`
(user_transactions_models/signatures.rs, not in the excerpt) — the
optional fee-payer address carried by the transaction signature. -/
structure TxnSignature where
  fee_payer_address : Option String
deriving Repr, DecidableEq

def Signature.get_fee_payer_address (s : TxnSignature) (_txn_version : Int) :
    Option String :=
  s.fee_payer_address

structure UserTransactionRequest where
  sender : String
  sequence_number : Nat
  gas_unit_price : Nat
  signature : Option TxnSignature
deriving Repr, DecidableEq

/-- `FeeStatement` (v2_fungible_asset_utils.rs): the storage refund of a
fee-statement event. -/
structure FeeStatement where
  storage_fee_refund_octas : Nat
deriving Repr, DecidableEq

structure CoinActivity where
  transaction_version : Int
  event_account_address : String
  event_creation_number : Int
  event_sequence_number : Int
  owner_address : String
  coin_type : String
  amount : Nat
  activity_type : String
  is_gas_fee : Bool
  is_transaction_success : Bool
  entry_function_id_str : Option String
  block_height : Int
  transaction_timestamp : Int
  event_index : Option Int
  gas_fee_payer_address : Option String
  storage_refund_amount : Nat
deriving Repr, DecidableEq

/-- `CoinActivity::get_gas_event`: the burned amount is
`txn_info.gas_used * user_transaction_request.gas_unit_price`, a u64 × u64
multiplication, which wraps modulo `2 ^ 64` (release-mode Rust semantics);
the storage refund is the fee statement's `storage_fee_refund_octas`, or
zero when no fee-statement event was found. -/
def CoinActivity.get_gas_event (txn_info : TransactionInfo)
    (user_transaction_request : UserTransactionRequest)
    (entry_function_id_str : Option String) (transaction_version : Int)
    (transaction_timestamp : Int) (block_height : Int)
    (fee_statement : Option FeeStatement) : CoinActivity :=
  let aptos_coin_burned :=
    txn_info.gas_used * user_transaction_request.gas_unit_price % 2 ^ 64
  let gas_fee_payer_address :=
    match user_transaction_request.signature with
    | some signature => Signature.get_fee_payer_address signature transaction_version
    | none => none
  { transaction_version := transaction_version
    event_account_address := standardize_address user_transaction_request.sender
    event_creation_number := BURN_GAS_EVENT_CREATION_NUM
    event_sequence_number := (user_transaction_request.sequence_number : Int)
    owner_address := standardize_address user_transaction_request.sender
    coin_type := APTOS_COIN_TYPE_STR
    amount := aptos_coin_burned
    activity_type := GAS_FEE_EVENT
    is_gas_fee := true
    is_transaction_success := txn_info.success
    entry_function_id_str := entry_function_id_str
    block_height := block_height
    transaction_timestamp := transaction_timestamp
    event_index := some BURN_GAS_EVENT_INDEX
    gas_fee_payer_address := gas_fee_payer_address
    storage_refund_amount := (fee_statement.map (·.storage_fee_refund_octas)).getD 0 }

/-- Counterexample for C7: the charged amount is the u64 *wrapping* product,
not the mathematical product — at `gas_used = 2 ^ 63` and
`gas_unit_price = 2` the row's amount is `0`, not `2 ^ 64`. -/
theorem get_gas_event_amount_overflow :
    (CoinActivity.get_gas_event ⟨2 ^ 63, true⟩ ⟨"0xa", 0, 2, none⟩ none 1 0 1 none).amount =
      0 ∧
    (0 : Nat) ≠ 2 ^ 63 * 2 := by
  constructor
  · show 2 ^ 63 * 2 % 2 ^ 64 = 0
    norm_num
  · norm_num

/-- C7 (amended): the gas row's amount is
`gas_used * gas_unit_price % 2 ^ 64` — equal to the product whenever the
product fits in a u64 — and `storage_refund_amount` is the fee statement's
`storage_fee_refund_octas` when one is present and zero otherwise; in
particular `gas_used = 100`, `gas_unit_price = 10` with no fee statement
gives amount 1000 and refund 0. -/
theorem get_gas_event_amount_and_refund (txn_info : TransactionInfo)
    (req : UserTransactionRequest) (efid : Option String) (v ts bh : Int)
    (ofs : Option FeeStatement) :
    ((CoinActivity.get_gas_event txn_info req efid v ts bh ofs).amount =
      txn_info.gas_used * req.gas_unit_price % 2 ^ 64) ∧
    (txn_info.gas_used * req.gas_unit_price < 2 ^ 64 →
      (CoinActivity.get_gas_event txn_info req efid v ts bh ofs).amount =
        txn_info.gas_used * req.gas_unit_price) ∧
    (∀ fs : FeeStatement, ofs = some fs →
      (CoinActivity.get_gas_event txn_info req efid v ts bh ofs).storage_refund_amount =
        fs.storage_fee_refund_octas) ∧
    (ofs = none →
      (CoinActivity.get_gas_event txn_info req efid v ts bh ofs).storage_refund_amount = 0) ∧
    (CoinActivity.get_gas_event ⟨100, true⟩ ⟨"0xa", 0, 10, none⟩ none 1 0 1 none).amount =
      1000 ∧
    (CoinActivity.get_gas_event
        ⟨100, true⟩ ⟨"0xa", 0, 10, none⟩ none 1 0 1 none).storage_refund_amount = 0 := by
  refine ⟨rfl, ?_, ?_, ?_, by norm_num [CoinActivity.get_gas_event], rfl⟩
  · intro h
    show txn_info.gas_used * req.gas_unit_price % 2 ^ 64 = _
    exact Nat.mod_eq_of_lt h
  · intro fs hfs
    subst hfs
    rfl
  · intro h
    subst h
    rfl

/-- Witness for C7: the amended statement at `gas_used = 100`,
`gas_unit_price = 10`, no fee statement — amount 1000, refund 0 — and at a
present fee statement with refund 7. -/
theorem get_gas_event_amount_and_refund_witness :
    (CoinActivity.get_gas_event ⟨100, true⟩ ⟨"0xa", 0, 10, none⟩ none 1 0 1 none).amount =
      100 * 10 ∧
    (CoinActivity.get_gas_event ⟨100, true⟩ ⟨"0xa", 0, 10, none⟩ none 1 0 1 none).storage_refund_amount =
      0 ∧
    (CoinActivity.get_gas_event
        ⟨100, true⟩ ⟨"0xa", 0, 10, none⟩ none 1 0 1 (some ⟨7⟩)).storage_refund_amount = 7 := by
  refine ⟨?_, ?_, ?_⟩
  · exact (get_gas_event_amount_and_refund ⟨100, true⟩ ⟨"0xa", 0, 10, none⟩ none 1 0 1
      none).2.1 (by norm_num)
  · exact (get_gas_event_amount_and_refund ⟨100, true⟩ ⟨"0xa", 0, 10, none⟩ none 1 0 1
      none).2.2.2.1 rfl
  · exact (get_gas_event_amount_and_refund ⟨100, true⟩ ⟨"0xa", 0, 10, none⟩ none 1 0 1
      (some ⟨7⟩)).2.2.1 ⟨7⟩ rfl

/-! ## Decode-failure handling in the extraction loops
(coin_activities.rs lines 192–209 and ans_processor.rs lines 527–547) -/

structure EventKey where
  account_address : String
  creation_number : Int
deriving Repr, DecidableEq

/-- A protobuf event: optional key, sequence number, type tag and raw
payload. -/
structure Event where
  key : Option EventKey
  sequence_number : Nat
  type_str : String
  data : String
deriving Repr, DecidableEq

/-- `EventGuidResource` (coin_models/coin_utils.rs): the GUID under which a
coin store registered its deposit/withdraw events. -/
structure EventGuidResource where
  addr : String
  creation_num : Int
deriving Repr, DecidableEq

inductive CoinEvent where
  | withdrawCoinEvent (amount : Nat)
  | depositCoinEvent (amount : Nat)
deriving Repr, DecidableEq

/-- Modelled from the spec: `CoinEvent::from_event`
(coin_models/coin_utils.rs, not in the excerpt) — an unsupported type tag
is `Ok(None)`; a supported tag whose payload fails to parse is `Err` (the
malformed-supported-type case); otherwise the decoded event.  The payload
is represented by its amount string. -/
def CoinEvent.from_event (data_type : String) (data : String) (_txn_version : Int) :
    Except String (Option CoinEvent) :=
  if data_type = "0x1::coin::WithdrawEvent" then
    match parseIntString data with
    | some n => if n < 0 then .error "Failed to parse coin event" else
        .ok (some (.withdrawCoinEvent n.toNat))
    | none => .error "Failed to parse coin event"
  else if data_type = "0x1::coin::DepositEvent" then
    match parseIntString data with
    | some n => if n < 0 then .error "Failed to parse coin event" else
        .ok (some (.depositCoinEvent n.toNat))
    | none => .error "Failed to parse coin event"
  else .ok none

/-- `CoinActivity::from_parsed_event`: builds the activity row for a decoded
withdraw/deposit event; the coin type is looked up by event GUID, with the
sentinel `"0x1::coin::UnknownCoinType"` when unmapped;
`event.key.as_ref().unwrap()` is a panic (modelled as `Except.error`) when
the protobuf key is absent. -/
def CoinActivity.from_parsed_event (event_type : String) (event : Event)
    (coin_event : CoinEvent) (txn_version : Int)
    (event_to_coin_type : List (EventGuidResource × String))
    (block_height : Int) (entry_function_id_str : Option String)
    (transaction_timestamp : Int) (event_index : Int) :
    Except String CoinActivity :=
  match event.key with
  | none => .error "called Option::unwrap on a None value"
  | some key =>
    let amount :=
      match coin_event with
      | .withdrawCoinEvent a => a
      | .depositCoinEvent a => a
    let event_move_guid : EventGuidResource :=
      { addr := standardize_address key.account_address
        creation_num := key.creation_number }
    let coin_type :=
      (hashMapLookup event_to_coin_type event_move_guid).getD "0x1::coin::UnknownCoinType"
    .ok
      { transaction_version := txn_version
        event_account_address := standardize_address key.account_address
        event_creation_number := key.creation_number
        event_sequence_number := (event.sequence_number : Int)
        owner_address := standardize_address key.account_address
        coin_type := coin_type
        amount := amount
        activity_type := event_type
        is_gas_fee := false
        is_transaction_success := true
        entry_function_id_str := entry_function_id_str
        block_height := block_height
        transaction_timestamp := transaction_timestamp
        event_index := some event_index
        gas_fee_payer_address := none
        storage_refund_amount := 0 }

/-- The coin-event loop of `CoinActivity::from_transaction` (lines 192–209):
each enumerated event is decoded with `CoinEvent::from_event(...).unwrap()`
— the `unwrap` of a decode `Err` is a panic, modelled as `Except.error`,
aborting the whole extraction rather than dropping the single item. -/
def coinActivitiesFromEvents (txn_version : Int)
    (event_to_coin_type : List (EventGuidResource × String)) (block_height : Int)
    (entry_function_id_str : Option String) (txn_timestamp : Int) :
    List Event → Int → Except String (List CoinActivity)
  | [], _ => .ok []
  | event :: rest, index =>
    match CoinEvent.from_event event.type_str event.data txn_version with
    | .error e => .error e
    | .ok none =>
      coinActivitiesFromEvents txn_version event_to_coin_type block_height
        entry_function_id_str txn_timestamp rest (index + 1)
    | .ok (some parsed) =>
      match CoinActivity.from_parsed_event event.type_str event parsed txn_version
          event_to_coin_type block_height entry_function_id_str txn_timestamp index with
      | .error e => .error e
      | .ok activity =>
        match coinActivitiesFromEvents txn_version event_to_coin_type block_height
            entry_function_id_str txn_timestamp rest (index + 1) with
        | .error e => .error e
        | .ok acts => .ok (activity :: acts)

/-- Modelled from the spec: the decoded content of an ANS v2 renew-name
event (ans_models/ans_utils.rs, not in the excerpt). -/
structure RenewNameEvent where
  domain : String
  subdomain : String
  expiration_time_secs : Int
deriving Repr, DecidableEq

/-- Composite key of `current_ans_primary_name_v2` (conflict target
`(registered_address, token_standard)`). -/
def CurrentAnsPrimaryNameV2.pk (r : CurrentAnsPrimaryNameV2) : String × String :=
  (r.registered_address, r.token_standard)

/-- One user-transaction event as seen by the ANS v2 event loop of
`parse_ans`, carrying the outcomes of the two (out-of-excerpt) decoders
invoked on it — `RenewNameEvent::from_event` and
`CurrentAnsPrimaryNameV2::parse_v2_primary_name_record_from_event`;
`Except.error` is a decode failure for a claimed-supported tag. -/
structure AnsV2Event where
  renew : Except String (Option RenewNameEvent)
  primaryName : Except String (Option (CurrentAnsPrimaryNameV2 × AnsPrimaryNameV2))

/-- The ANS v2 event loop of `parse_ans` (lines 527–547): both decoder
results are `.unwrap()`ed — a decode `Err` panics (modelled as
`Except.error`), aborting the whole batch — while decoded rows accumulate
into `v2_renew_name_events`, `all_current_ans_primary_names_v2` (keyed
`AHashMap` insert) and `all_ans_primary_names_v2`. -/
def parseAnsV2Events (events : List AnsV2Event)
    (renews : List RenewNameEvent)
    (currents : List ((String × String) × CurrentAnsPrimaryNameV2))
    (primaries : List AnsPrimaryNameV2) :
    Except String
      (List RenewNameEvent × List ((String × String) × CurrentAnsPrimaryNameV2) ×
        List AnsPrimaryNameV2) :=
  match events with
  | [] => .ok (renews, currents, primaries)
  | e :: rest =>
    match e.renew with
    | .error msg => .error msg
    | .ok orenew =>
      let renews2 :=
        match orenew with
        | some r => renews ++ [r]
        | none => renews
      match e.primaryName with
      | .error msg => .error msg
      | .ok (some (cur, prim)) =>
        parseAnsV2Events rest renews2 (hashMapInsert currents cur.pk cur)
          (primaries ++ [prim])
      | .ok none => parseAnsV2Events rest renews2 currents primaries

/-- Counterexample for C4: a malformed payload of a claimed-supported tag
aborts the whole extraction — the well-formed second coin event is lost,
the batch does not continue; likewise an ANS v2 decode failure aborts
`parse_ans`'s event loop. -/
theorem decode_failure_aborts_batch :
    coinActivitiesFromEvents 1 [] 1 none 0
        [⟨some ⟨"0xa", 2⟩, 0, "0x1::coin::DepositEvent", "oops"⟩,
         ⟨some ⟨"0xa", 2⟩, 1, "0x1::coin::DepositEvent", "42"⟩] 0 =
      .error "Failed to parse coin event" ∧
    parseAnsV2Events
        [⟨.error "Error parsing ANS v2 renew name event", .ok none⟩] [] [] [] =
      .error "Error parsing ANS v2 renew name event" := by
  exact ⟨rfl, rfl⟩

/-- C4 (amended): in the coin-event loop of
`CoinActivity::from_transaction` and in the ANS v2 event loop of
`parse_ans` — the two sites the claim names — a decode failure for a
claimed-supported tag is `.unwrap()`ed and panics, aborting the entire
batch extraction rather than dropping the single item: the failing item's
error is the loop's result however many well-formed items surround it.
The ANS v1 table-item path, by contrast, does drop the failed item and
continue. -/
theorem decode_failure_handling (tv : Int) (m : List (EventGuidResource × String))
    (bh : Int) (efid : Option String) (ts : Int) :
    (∀ (e : Event) (rest : List Event) (idx : Int) (msg : String),
      CoinEvent.from_event e.type_str e.data tv = .error msg →
      coinActivitiesFromEvents tv m bh efid ts (e :: rest) idx = .error msg) ∧
    (∀ (e : AnsV2Event) (rest : List AnsV2Event) rs cs ps (msg : String),
      e.renew = .error msg →
      parseAnsV2Events (e :: rest) rs cs ps = .error msg) ∧
    (∀ (e : AnsV2Event) (rest : List AnsV2Event) rs cs ps (msg : String)
        (orenew : Option RenewNameEvent),
      e.renew = .ok orenew → e.primaryName = .error msg →
      parseAnsV2Events (e :: rest) rs cs ps = .error msg) ∧
    (∀ (v : Int) (tstamp : Option Int) (cs : List AnsWriteSetChange),
      txnUpdates ⟨v, tstamp, some (.writeTableItem none :: cs)⟩ =
        txnUpdates ⟨v, tstamp, some cs⟩) := by
  refine ⟨?_, ?_, ?_, ?_⟩
  · intro e rest idx msg h
    unfold coinActivitiesFromEvents
    rw [h]
  · intro e rest rs cs ps msg h
    unfold parseAnsV2Events
    rw [h]
  · intro e rest rs cs ps msg orenew hr hp
    unfold parseAnsV2Events
    rw [hr, hp]
  · intro v tstamp cs
    rfl

/-- Witness for C4: the amended statement at concrete failing events — the
coin loop and both ANS v2 decoder positions propagate the concrete error,
and a v1 decode failure is dropped while the batch continues. -/
theorem decode_failure_handling_witness :
    coinActivitiesFromEvents 1 [] 1 none 0
        [⟨some ⟨"0xb", 3⟩, 0, "0x1::coin::WithdrawEvent", "bad"⟩] 0 =
      .error "Failed to parse coin event" ∧
    parseAnsV2Events [⟨.error "boom", .ok none⟩] [] [] [] = .error "boom" ∧
    parseAnsV2Events [⟨.ok none, .error "boom2"⟩] [] [] [] = .error "boom2" ∧
    txnUpdates ⟨3, none, some [.writeTableItem none]⟩ = txnUpdates ⟨3, none, some []⟩ := by
  refine ⟨?_, ?_, ?_, ?_⟩
  · exact (decode_failure_handling 1 [] 1 none 0).1
      ⟨some ⟨"0xb", 3⟩, 0, "0x1::coin::WithdrawEvent", "bad"⟩ [] 0
      "Failed to parse coin event" rfl
  · exact (decode_failure_handling 1 [] 1 none 0).2.1 ⟨.error "boom", .ok none⟩ [] [] [] []
      "boom" rfl
  · exact (decode_failure_handling 1 [] 1 none 0).2.2.1 ⟨.ok none, .error "boom2"⟩ [] [] [] []
      "boom2" none rfl rfl
  · exact (decode_failure_handling 1 [] 1 none 0).2.2.2 3 none []

/-! ## Token pending claims
(src/rust/processor/src/db/common/models/token_models/token_claims.rs)

The token-item decoder (`TokenWriteSet::from_table_item_type`,
token_models/token_utils.rs) and the `TokenDataIdType` identity helpers are
outside the excerpt; the decoder's outcome is carried on the table item and
the helpers are modelled from the spec. -/

/-- The UTF-8 encoding of one character (Rust `str` bytes). -/
def utf8EncodeCharBytes (c : Char) : List Nat :=
  let n := c.toNat
  if n < 0x80 then [n]
  else if n < 0x800 then
    [0xC0 ||| (n >>> 6), 0x80 ||| (n &&& 0x3F)]
  else if n < 0x10000 then
    [0xE0 ||| (n >>> 12), 0x80 ||| ((n >>> 6) &&& 0x3F), 0x80 ||| (n &&& 0x3F)]
  else
    [0xF0 ||| (n >>> 18), 0x80 ||| ((n >>> 12) &&& 0x3F),
      0x80 ||| ((n >>> 6) &&& 0x3F), 0x80 ||| (n &&& 0x3F)]

/-- The UTF-8 bytes of a string (`str::as_bytes`). -/
def utf8Bytes : List Char → List Nat
  | [] => []
  | c :: cs => utf8EncodeCharBytes c ++ utf8Bytes cs

/-- `truncate_str` (utils/util.rs): `val.truncate(max_chars)` shortens the
Rust `String` to at most `max_chars` *bytes* of its UTF-8 form — despite
the parameter's name — and panics (`none`) when that byte position falls
inside a multi-byte character; a cut at a character boundary keeps the
characters that fit. -/
def truncateCharsAtBytes (max_bytes : Nat) : List Char → Option (List Char)
  | [] => some []
  | c :: cs =>
    if max_bytes = 0 then some []
    else if (utf8EncodeCharBytes c).length ≤ max_bytes then
      (truncateCharsAtBytes (max_bytes - (utf8EncodeCharBytes c).length) cs).map
        (fun l => c :: l)
    else none

def truncate_str (val : String) (max_chars : Nat) : Option String :=
  (truncateCharsAtBytes max_chars val.data).map fun cs => ⟨cs⟩

/-- Modelled from the spec: `NAME_LENGTH` of token_models/token_utils.rs. -/
def NAME_LENGTH : Nat := 128

/-! ### SHA-256, for `hash_str` (utils/util.rs):
`hex::encode(sha2::Sha256::digest(val.as_bytes()))`.  32-bit words are
`Nat` reduced modulo `2 ^ 32`. -/

def w32 (n : Nat) : Nat := n % 4294967296

def rotr32 (x n : Nat) : Nat := (x >>> n) ||| w32 (x <<< (32 - n))

def smallSigma0 (x : Nat) : Nat := (rotr32 x 7) ^^^ (rotr32 x 18) ^^^ (x >>> 3)

def smallSigma1 (x : Nat) : Nat := (rotr32 x 17) ^^^ (rotr32 x 19) ^^^ (x >>> 10)

def bigSigma0 (x : Nat) : Nat := (rotr32 x 2) ^^^ (rotr32 x 13) ^^^ (rotr32 x 22)

def bigSigma1 (x : Nat) : Nat := (rotr32 x 6) ^^^ (rotr32 x 11) ^^^ (rotr32 x 25)

/-- Trial-division primality, enough for the primes SHA-256 draws on. -/
def isPrimeNat (n : Nat) : Bool :=
  2 ≤ n && (((List.range n).drop 2).all fun d => n % d ≠ 0)

/-- The first `k` primes (the 64th prime is 311 < 400). -/
def firstPrimes (k : Nat) : List Nat :=
  ((List.range 400).filter isPrimeNat).take k

/-- Bisection for `⌊target ^ (1/n)⌋`, keeping `lo ^ n ≤ target < hi ^ n`;
the fuel (128 ≥ the bit width of every target used) makes it structural. -/
def nthRootSearch (n target : Nat) : Nat → Nat → Nat → Nat
  | lo, _, 0 => lo
  | lo, hi, fuel + 1 =>
    if hi ≤ lo + 1 then lo
    else
      let mid := (lo + hi) / 2
      if mid ^ n ≤ target then nthRootSearch n target mid hi fuel
      else nthRootSearch n target lo mid fuel

def intNthRoot (n target : Nat) : Nat :=
  nthRootSearch n target 0 (target + 1) 128

/-- The 64 SHA-256 round constants: the first 32 bits of the fractional
parts of the cube roots of the first 64 primes (FIPS 180-4 §4.2.2). -/
def sha256K : List Nat :=
  (firstPrimes 64).map fun p => intNthRoot 3 (p * 2 ^ 96) % 2 ^ 32

/-- The SHA-256 initial hash state: the first 32 bits of the fractional
parts of the square roots of the first 8 primes (FIPS 180-4 §5.3.3). -/
def sha256InitH : List Nat :=
  (firstPrimes 8).map fun p => intNthRoot 2 (p * 2 ^ 64) % 2 ^ 32

/-- Big-endian 32-bit words of a 64-byte block. -/
def bytesToWords : List Nat → List Nat
  | b0 :: b1 :: b2 :: b3 :: rest =>
    ((b0 <<< 24) + (b1 <<< 16) + (b2 <<< 8) + b3) :: bytesToWords rest
  | _ => []

/-- Extend the 16-word schedule by `n` further words. -/
def extendSchedule (w : List Nat) : Nat → List Nat
  | 0 => w
  | n + 1 =>
    let w2 := extendSchedule w n
    w2 ++ [w32 (smallSigma1 (w2.getD (w2.length - 2) 0) + w2.getD (w2.length - 7) 0 +
      smallSigma0 (w2.getD (w2.length - 15) 0) + w2.getD (w2.length - 16) 0)]

/-- One SHA-256 compression round on the eight-word working state. -/
def sha256Round (st : List Nat) (wi ki : Nat) : List Nat :=
  match st with
  | [a, b, c, d, e, f, g, h] =>
    let ch := (e &&& f) ^^^ ((4294967295 - e) &&& g)
    let temp1 := w32 (h + bigSigma1 e + ch + ki + wi)
    let maj := (a &&& (b ^^^ c)) ^^^ (b &&& c)
    let temp2 := w32 (bigSigma0 a + maj)
    [w32 (temp1 + temp2), a, b, c, w32 (d + temp1), e, f, g]
  | other => other

/-- Compress one 64-byte block into the hash state. -/
def sha256Compress (hstate : List Nat) (block : List Nat) : List Nat :=
  let w := extendSchedule (bytesToWords block) 48
  let final := (List.zip w sha256K).foldl (fun st p => sha256Round st p.1 p.2) hstate
  List.zipWith (fun x y => w32 (x + y)) hstate final

/-- Consume the padded message block by block; `fuel` (at least the block
count — the padded length is used) makes the recursion structural. -/
def sha256Blocks : Nat → List Nat → List Nat → List Nat
  | 0, hstate, _ => hstate
  | _, hstate, [] => hstate
  | fuel + 1, hstate, bs =>
    sha256Blocks fuel (sha256Compress hstate (bs.take 64)) (bs.drop 64)

/-- A number as `k` big-endian bytes. -/
def bigEndianBytes (k n : Nat) : List Nat :=
  (List.range k).map (fun i => (n >>> ((k - 1 - i) * 8)) &&& 255)

/-- The eight state words, big-endian, as the 32 digest bytes. -/
def wordsToBytes : List Nat → List Nat
  | [] => []
  | wd :: rest => bigEndianBytes 4 wd ++ wordsToBytes rest

/-- SHA-256 of a byte string: pad with `0x80`, zeros to 56 mod 64, and the
64-bit big-endian bit length, then compress each block. -/
def sha256 (msg : List Nat) : List Nat :=
  let len := msg.length
  let z := (64 + 56 - ((len + 1) % 64)) % 64
  let padded := msg ++ [0x80] ++ List.replicate z 0 ++ bigEndianBytes 8 (len * 8)
  wordsToBytes (sha256Blocks padded.length sha256InitH padded)

def hexDigitChar (n : Nat) : Char :=
  if n < 10 then Char.ofNat (48 + n) else Char.ofNat (87 + n)

/-- `hex::encode`: lowercase hex of a byte string. -/
def hexEncodeBytes (bs : List Nat) : String :=
  ⟨bs.foldr (fun b acc => hexDigitChar (b / 16) :: hexDigitChar (b % 16) :: acc) []⟩

/-- `hash_str` (utils/util.rs):
`hex::encode(sha2::Sha256::digest(val.as_bytes()))`. -/
def hash_str (s : String) : String :=
  hexEncodeBytes (sha256 (utf8Bytes s.data))

structure TokenDataIdType where
  creator : String
  collection : String
  name : String
deriving Repr, DecidableEq

/-- Modelled from the spec: identity helpers of `TokenDataIdType`
(token_models/token_utils.rs, not in the excerpt). -/
def TokenDataIdType.get_creator_address (t : TokenDataIdType) : String :=
  standardize_address t.creator

def TokenDataIdType.to_hash (t : TokenDataIdType) : String :=
  hash_str (t.get_creator_address ++ "::" ++ t.collection ++ "::" ++ t.name)

def TokenDataIdType.get_collection_data_id_hash (t : TokenDataIdType) : String :=
  hash_str (t.get_creator_address ++ "::" ++ t.collection)

/-- Token-v2-consistent ids: the hashes with a `0x` prefix. -/
def TokenDataIdType.to_id (t : TokenDataIdType) : String :=
  "0x" ++ t.to_hash

def TokenDataIdType.get_collection_id (t : TokenDataIdType) : String :=
  "0x" ++ t.get_collection_data_id_hash

/-- Truncated display names (`none` when `String::truncate` would panic off
a character boundary). -/
def TokenDataIdType.get_collection_trunc (t : TokenDataIdType) : Option String :=
  truncate_str t.collection NAME_LENGTH

def TokenDataIdType.get_name_trunc (t : TokenDataIdType) : Option String :=
  truncate_str t.name NAME_LENGTH

structure TokenIdType where
  token_data_id : TokenDataIdType
  property_version : Nat
deriving Repr, DecidableEq

structure TokenOfferIdType where
  token_id : TokenIdType
  to_addr : String
deriving Repr, DecidableEq

def TokenOfferIdType.get_to_address (o : TokenOfferIdType) : String :=
  standardize_address o.to_addr

structure TokenType where
  id : TokenIdType
  amount : Nat
deriving Repr, DecidableEq

inductive TokenWriteSet where
  | tokenOfferId (inner : TokenOfferIdType)
  | token (inner : TokenType)
  | otherTokenData
deriving Repr, DecidableEq

/-- A write-table-item data section, carrying the outcomes of
`TokenWriteSet::from_table_item_type` on its key and value: `Except.error`
is a decode failure, `.ok none` an unsupported type. -/
structure WriteTableItemData where
  key_type : String
  key : Except String (Option TokenWriteSet)
  value_type : String
  value : Except String (Option TokenWriteSet)

structure WriteTableItem where
  handle : String
  data : Option WriteTableItemData

structure DeleteTableItemData where
  key_type : String
  key : Except String (Option TokenWriteSet)

structure DeleteTableItem where
  handle : String
  data : Option DeleteTableItemData

structure TableMetadata where
  owner_address : String
deriving Repr, DecidableEq

/-- Modelled from the spec: `TableMetadata::get_owner_address`
(token_models/tokens.rs, not in the excerpt). -/
def TableMetadata.get_owner_address (m : TableMetadata) : String :=
  standardize_address m.owner_address

structure CurrentTokenPendingClaim where
  token_data_id_hash : String
  property_version : Nat
  from_address : String
  to_address : String
  collection_data_id_hash : String
  creator_address : String
  collection_name : String
  name : String
  amount : Nat
  table_handle : String
  last_transaction_version : Int
  last_transaction_timestamp : Int
  token_data_id : String
  collection_id : String
deriving Repr, DecidableEq

/-- `CurrentTokenPendingClaim::from_write_table_item`: a missing
table-handle owner is logged (warn) and the item skipped with `Ok(None)`.
The result's outer `Option` is the panic channel: `none` when
`String::truncate` panics inside `get_collection_trunc`/`get_name_trunc`. -/
def CurrentTokenPendingClaim.from_write_table_item (table_item : WriteTableItem)
    (txn_version : Int) (txn_timestamp : Int)
    (table_handle_to_owner : List (String × TableMetadata)) :
    Option (Except String (Option CurrentTokenPendingClaim)) :=
  match table_item.data with
  | none => some (.ok none)
  | some table_item_data =>
    match table_item_data.key with
    | .error e => some (.error e)
    | .ok decoded_key =>
      let maybe_offer :=
        match decoded_key with
        | some (.tokenOfferId inner) => some inner
        | _ => none
      match maybe_offer with
      | none => some (.ok none)
      | some offer =>
        match table_item_data.value with
        | .error e => some (.error e)
        | .ok decoded_value =>
          let maybe_token :=
            match decoded_value with
            | some (.token inner) => some inner
            | _ => none
          match maybe_token with
          | none => some (.ok none)
          | some token =>
            let table_handle := standardize_address table_item.handle
            match hashMapLookup table_handle_to_owner table_handle with
            | none => some (.ok none)
            | some table_metadata =>
              match offer.token_id.token_data_id.get_collection_trunc,
                  offer.token_id.token_data_id.get_name_trunc with
              | some collection_name, some nm =>
                some (.ok (some
                  { token_data_id_hash := offer.token_id.token_data_id.to_hash
                    property_version := offer.token_id.property_version
                    from_address := table_metadata.get_owner_address
                    to_address := offer.get_to_address
                    collection_data_id_hash :=
                      offer.token_id.token_data_id.get_collection_data_id_hash
                    creator_address := offer.token_id.token_data_id.get_creator_address
                    collection_name := collection_name
                    name := nm
                    amount := token.amount
                    table_handle := table_handle
                    last_transaction_version := txn_version
                    last_transaction_timestamp := txn_timestamp
                    token_data_id := offer.token_id.token_data_id.to_id
                    collection_id := offer.token_id.token_data_id.get_collection_id }))
              | _, _ => none

/-- `CurrentTokenPendingClaim::from_delete_table_item`: a missing
table-handle owner is turned into an error with
`.ok_or_else(.. anyhow!("Missing table handle metadata for claim"))?`
and propagated to the caller; otherwise the deleted claim becomes an update
row with zero amount at the deleting version.  The outer `Option` is the
panic channel of `String::truncate`, as in `from_write_table_item`. -/
def CurrentTokenPendingClaim.from_delete_table_item (table_item : DeleteTableItem)
    (txn_version : Int) (txn_timestamp : Int)
    (table_handle_to_owner : List (String × TableMetadata)) :
    Option (Except String (Option CurrentTokenPendingClaim)) :=
  match table_item.data with
  | none => some (.ok none)
  | some table_item_data =>
    match table_item_data.key with
    | .error e => some (.error e)
    | .ok decoded_key =>
      let maybe_offer :=
        match decoded_key with
        | some (.tokenOfferId inner) => some inner
        | _ => none
      match maybe_offer with
      | none => some (.ok none)
      | some offer =>
        let table_handle := standardize_address table_item.handle
        match hashMapLookup table_handle_to_owner table_handle with
        | none => some (.error "Missing table handle metadata for claim")
        | some table_metadata =>
          match offer.token_id.token_data_id.get_collection_trunc,
              offer.token_id.token_data_id.get_name_trunc with
          | some collection_name, some nm =>
            some (.ok (some
              { token_data_id_hash := offer.token_id.token_data_id.to_hash
                property_version := offer.token_id.property_version
                from_address := table_metadata.get_owner_address
                to_address := offer.get_to_address
                collection_data_id_hash :=
                  offer.token_id.token_data_id.get_collection_data_id_hash
                creator_address := offer.token_id.token_data_id.get_creator_address
                collection_name := collection_name
                name := nm
                amount := 0
                table_handle := table_handle
                last_transaction_version := txn_version
                last_transaction_timestamp := txn_timestamp
                token_data_id := offer.token_id.token_data_id.to_id
                collection_id := offer.token_id.token_data_id.get_collection_id }))
          | _, _ => none

/-- Counterexample for C5: with a decodable `TokenOfferId` key and no owner
entry for the table handle, `from_delete_table_item` returns an `Err` — it
does not skip with `Ok(None)` — while `from_write_table_item` does skip. -/
theorem token_claim_delete_missing_owner_errs :
    CurrentTokenPendingClaim.from_delete_table_item
        ⟨"0xcafe", some ⟨"0x3::token::TokenOfferId",
          .ok (some (.tokenOfferId ⟨⟨⟨"0xc", "coll", "nm"⟩, 0⟩, "0xd"⟩))⟩⟩
        5 0 [] =
      some (.error "Missing table handle metadata for claim") ∧
    CurrentTokenPendingClaim.from_write_table_item
        ⟨"0xcafe", some ⟨"0x3::token::TokenOfferId",
          .ok (some (.tokenOfferId ⟨⟨⟨"0xc", "coll", "nm"⟩, 0⟩, "0xd"⟩)),
          "0x3::token::Token",
          .ok (some (.token ⟨⟨⟨"0xc", "coll", "nm"⟩, 0⟩, 1⟩))⟩⟩
        5 0 [] =
      some (.ok none) := by
  exact ⟨rfl, rfl⟩

/-- C5 (amended): on a missing table-handle owner,
`from_write_table_item` logs and skips the single extraction with
`Ok(None)`; `from_delete_table_item` instead logs and returns
`Err("Missing table handle metadata for claim")`, propagating the error to
the caller. -/
theorem missing_owner_cross_reference_handling
    (handle : String) (d : WriteTableItemData) (dd : DeleteTableItemData)
    (txn_version txn_timestamp : Int) (m : List (String × TableMetadata))
    (offer : TokenOfferIdType) (token : TokenType) :
    (d.key = .ok (some (.tokenOfferId offer)) →
      d.value = .ok (some (.token token)) →
      hashMapLookup m (standardize_address handle) = none →
      CurrentTokenPendingClaim.from_write_table_item ⟨handle, some d⟩
        txn_version txn_timestamp m = some (.ok none)) ∧
    (dd.key = .ok (some (.tokenOfferId offer)) →
      hashMapLookup m (standardize_address handle) = none →
      CurrentTokenPendingClaim.from_delete_table_item ⟨handle, some dd⟩
        txn_version txn_timestamp m =
        some (.error "Missing table handle metadata for claim")) := by
  constructor
  · intro hk hv hm
    simp only [CurrentTokenPendingClaim.from_write_table_item, hk, hv, hm]
  · intro hk hm
    simp only [CurrentTokenPendingClaim.from_delete_table_item, hk, hm]

/-- Witness for C5: the amended statement at a concrete table item whose
handle has no owner entry. -/
theorem missing_owner_cross_reference_handling_witness :
    CurrentTokenPendingClaim.from_write_table_item
        ⟨"0xbeef", some ⟨"0x3::token::TokenOfferId",
          .ok (some (.tokenOfferId ⟨⟨⟨"0xc", "c2", "n2"⟩, 1⟩, "0xd"⟩)),
          "0x3::token::Token",
          .ok (some (.token ⟨⟨⟨"0xc", "c2", "n2"⟩, 1⟩, 3⟩))⟩⟩
        9 0 [] = some (.ok none) ∧
    CurrentTokenPendingClaim.from_delete_table_item
        ⟨"0xbeef", some ⟨"0x3::token::TokenOfferId",
          .ok (some (.tokenOfferId ⟨⟨⟨"0xc", "c2", "n2"⟩, 1⟩, "0xd"⟩))⟩⟩
        9 0 [] = some (.error "Missing table handle metadata for claim") := by
  constructor
  · exact (missing_owner_cross_reference_handling "0xbeef"
      ⟨"0x3::token::TokenOfferId",
        .ok (some (.tokenOfferId ⟨⟨⟨"0xc", "c2", "n2"⟩, 1⟩, "0xd"⟩)),
        "0x3::token::Token",
        .ok (some (.token ⟨⟨⟨"0xc", "c2", "n2"⟩, 1⟩, 3⟩))⟩
      ⟨"0x3::token::TokenOfferId",
        .ok (some (.tokenOfferId ⟨⟨⟨"0xc", "c2", "n2"⟩, 1⟩, "0xd"⟩))⟩
      9 0 [] ⟨⟨⟨"0xc", "c2", "n2"⟩, 1⟩, "0xd"⟩ ⟨⟨⟨"0xc", "c2", "n2"⟩, 1⟩, 3⟩).1
      rfl rfl rfl
  · exact (missing_owner_cross_reference_handling "0xbeef"
      ⟨"0x3::token::TokenOfferId",
        .ok (some (.tokenOfferId ⟨⟨⟨"0xc", "c2", "n2"⟩, 1⟩, "0xd"⟩)),
        "0x3::token::Token",
        .ok (some (.token ⟨⟨⟨"0xc", "c2", "n2"⟩, 1⟩, 3⟩))⟩
      ⟨"0x3::token::TokenOfferId",
        .ok (some (.tokenOfferId ⟨⟨⟨"0xc", "c2", "n2"⟩, 1⟩, "0xd"⟩))⟩
      9 0 [] ⟨⟨⟨"0xc", "c2", "n2"⟩, 1⟩, "0xd"⟩ ⟨⟨⟨"0xc", "c2", "n2"⟩, 1⟩, 3⟩).2
      rfl rfl

/-- Counterexample for C6: `from_address` is not populated from the decoded
key — two delete items with the *same* decoded key but different owner
entries in the auxiliary index produce rows differing exactly in
`from_address` (the rows below share every key-derived field). -/
theorem token_claim_from_address_not_from_key :
    CurrentTokenPendingClaim.from_delete_table_item
        ⟨"0xcafe", some ⟨"0x3::token::TokenOfferId",
          .ok (some (.tokenOfferId ⟨⟨⟨"0xc", "coll", "nm"⟩, 2⟩, "0xd"⟩))⟩⟩
        5 77 [(standardize_address "0xcafe", ⟨"0xaaa"⟩)] =
      some (.ok (some
        { token_data_id_hash := TokenDataIdType.to_hash ⟨"0xc", "coll", "nm"⟩
          property_version := 2
          from_address := TableMetadata.get_owner_address ⟨"0xaaa"⟩
          to_address := TokenOfferIdType.get_to_address ⟨⟨⟨"0xc", "coll", "nm"⟩, 2⟩, "0xd"⟩
          collection_data_id_hash :=
            TokenDataIdType.get_collection_data_id_hash ⟨"0xc", "coll", "nm"⟩
          creator_address := TokenDataIdType.get_creator_address ⟨"0xc", "coll", "nm"⟩
          collection_name := "coll"
          name := "nm"
          amount := 0
          table_handle := standardize_address "0xcafe"
          last_transaction_version := 5
          last_transaction_timestamp := 77
          token_data_id := TokenDataIdType.to_id ⟨"0xc", "coll", "nm"⟩
          collection_id := TokenDataIdType.get_collection_id ⟨"0xc", "coll", "nm"⟩ })) ∧
    CurrentTokenPendingClaim.from_delete_table_item
        ⟨"0xcafe", some ⟨"0x3::token::TokenOfferId",
          .ok (some (.tokenOfferId ⟨⟨⟨"0xc", "coll", "nm"⟩, 2⟩, "0xd"⟩))⟩⟩
        5 77 [(standardize_address "0xcafe", ⟨"0xbbb"⟩)] =
      some (.ok (some
        { token_data_id_hash := TokenDataIdType.to_hash ⟨"0xc", "coll", "nm"⟩
          property_version := 2
          from_address := TableMetadata.get_owner_address ⟨"0xbbb"⟩
          to_address := TokenOfferIdType.get_to_address ⟨⟨⟨"0xc", "coll", "nm"⟩, 2⟩, "0xd"⟩
          collection_data_id_hash :=
            TokenDataIdType.get_collection_data_id_hash ⟨"0xc", "coll", "nm"⟩
          creator_address := TokenDataIdType.get_creator_address ⟨"0xc", "coll", "nm"⟩
          collection_name := "coll"
          name := "nm"
          amount := 0
          table_handle := standardize_address "0xcafe"
          last_transaction_version := 5
          last_transaction_timestamp := 77
          token_data_id := TokenDataIdType.to_id ⟨"0xc", "coll", "nm"⟩
          collection_id := TokenDataIdType.get_collection_id ⟨"0xc", "coll", "nm"⟩ })) ∧
    TableMetadata.get_owner_address ⟨"0xaaa"⟩ ≠ TableMetadata.get_owner_address ⟨"0xbbb"⟩ := by
  exact ⟨rfl, rfl, by decide⟩

/-- C6 (amended): a delete table item that decodes to a pending token claim
with a resolvable owner yields an update row — not an absent row — with
zero amount and the deleting transaction's version as the watermark;
`token_data_id_hash`, `property_version` and `to_address` are computed from
the decoded key, while `from_address` comes from the table-handle owner
lookup in the auxiliary index. -/
theorem token_claim_delete_is_update_row
    (handle : String) (dd : DeleteTableItemData) (txn_version txn_timestamp : Int)
    (m : List (String × TableMetadata)) (offer : TokenOfferIdType)
    (tm : TableMetadata) (collection_name nm : String)
    (hk : dd.key = .ok (some (.tokenOfferId offer)))
    (hm : hashMapLookup m (standardize_address handle) = some tm)
    (hct : offer.token_id.token_data_id.get_collection_trunc = some collection_name)
    (hnt : offer.token_id.token_data_id.get_name_trunc = some nm) :
    CurrentTokenPendingClaim.from_delete_table_item ⟨handle, some dd⟩
        txn_version txn_timestamp m =
      some (.ok (some
        { token_data_id_hash := offer.token_id.token_data_id.to_hash
          property_version := offer.token_id.property_version
          from_address := tm.get_owner_address
          to_address := offer.get_to_address
          collection_data_id_hash :=
            offer.token_id.token_data_id.get_collection_data_id_hash
          creator_address := offer.token_id.token_data_id.get_creator_address
          collection_name := collection_name
          name := nm
          amount := 0
          table_handle := standardize_address handle
          last_transaction_version := txn_version
          last_transaction_timestamp := txn_timestamp
          token_data_id := offer.token_id.token_data_id.to_id
          collection_id := offer.token_id.token_data_id.get_collection_id })) := by
  simp only [CurrentTokenPendingClaim.from_delete_table_item, hk, hm, hct, hnt]

/-- Witness for C6: the deleted-claim update row at a concrete delete item
with a resolvable owner — zero amount at version 5, `from_address` from the
owner entry. -/
theorem token_claim_delete_is_update_row_witness :
    CurrentTokenPendingClaim.from_delete_table_item
        ⟨"0xcafe", some ⟨"0x3::token::TokenOfferId",
          .ok (some (.tokenOfferId ⟨⟨⟨"0xc", "coll", "nm"⟩, 2⟩, "0xd"⟩))⟩⟩
        5 77 [(standardize_address "0xcafe", ⟨"0xowner"⟩)] =
      some (.ok (some
        { token_data_id_hash := TokenDataIdType.to_hash ⟨"0xc", "coll", "nm"⟩
          property_version := 2
          from_address := TableMetadata.get_owner_address ⟨"0xowner"⟩
          to_address := TokenOfferIdType.get_to_address ⟨⟨⟨"0xc", "coll", "nm"⟩, 2⟩, "0xd"⟩
          collection_data_id_hash :=
            TokenDataIdType.get_collection_data_id_hash ⟨"0xc", "coll", "nm"⟩
          creator_address := TokenDataIdType.get_creator_address ⟨"0xc", "coll", "nm"⟩
          collection_name := "coll"
          name := "nm"
          amount := 0
          table_handle := standardize_address "0xcafe"
          last_transaction_version := 5
          last_transaction_timestamp := 77
          token_data_id := TokenDataIdType.to_id ⟨"0xc", "coll", "nm"⟩
          collection_id := TokenDataIdType.get_collection_id ⟨"0xc", "coll", "nm"⟩ })) := by
  exact token_claim_delete_is_update_row "0xcafe"
    ⟨"0x3::token::TokenOfferId",
      .ok (some (.tokenOfferId ⟨⟨⟨"0xc", "coll", "nm"⟩, 2⟩, "0xd"⟩))⟩
    5 77 [(standardize_address "0xcafe", ⟨"0xowner"⟩)]
    ⟨⟨⟨"0xc", "coll", "nm"⟩, 2⟩, "0xd"⟩ ⟨"0xowner"⟩ "coll" "nm"
    rfl (by decide) rfl rfl

end AptosIndexer
